import Mathlib

/-!
Shallow embedding of the neural-network trainer from the repository's two
near-duplicate notebooks (the code cells are identical). Matrices are embedded
as a structure carrying explicit row/column counts and a total entry function
over ℚ; numpy's transcendental primitives (exp, log, tanh, sqrt) and the
pseudo-random source feeding `np.random.randn` are abstracted as a `Prims`
record, since every property examined here is independent of their values.
Python's in-place list/array mutation is modelled by explicit state passing;
one aliasing effect of the source (`best_weights = weights` in `train_nn`)
is modelled by a flag, documented at `train_nn` below.
-/

namespace NNet

/-- Matrix embedding: `r`/`c` mirror `ndarray.shape`, `f` the entries.
Entries outside the `r × c` range are junk and never constrain theorems. -/
structure Mat where
  r : ℕ
  c : ℕ
  f : ℕ → ℕ → ℚ

/-- Default matrix used as the `getD` fallback (never hit under the shape
hypotheses of the theorems below). -/
def dMat : Mat := ⟨0, 0, fun _ _ => 0⟩

/-- Abstracted numeric primitives: numpy's elementwise `exp`, `tanh`, `log`,
scalar `sqrt`, and the shared pseudo-random source behind `np.random.randn`
(modelled as a fixed entry table, which is all the shape/structure claims
need). -/
structure Prims where
  exp : ℚ → ℚ
  tanh : ℚ → ℚ
  log : ℚ → ℚ
  sqrt : ℚ → ℚ
  randn : ℕ → ℕ → ℚ

/-- The `activation_functions` dict of the source: exactly the keys
`hidden` and `output`, each a string dispatched by name. -/
structure ActivationConfig where
  hidden : String
  output : String

/-- Matrix product `np.dot(A, B)`: shape `(A.r, B.c)`, inner dimension taken
from `A.c` (equal to `B.r` whenever the layer shape contract holds). -/
def matMul (A B : Mat) : Mat :=
  ⟨A.r, B.c, fun i j => ((List.range A.c).map fun k => A.f i k * B.f k j).sum⟩

/-- Matrix transpose `A.T`. -/
def transposeM (A : Mat) : Mat := ⟨A.c, A.r, fun i j => A.f j i⟩

/-- Broadcast addition `Z + b` of an `(n, m)` matrix and an `(n, 1)` bias
column, as numpy broadcasts it in `linear_forward`. -/
def addBias (Z b : Mat) : Mat := ⟨Z.r, Z.c, fun i j => Z.f i j + b.f i 0⟩

/-- Elementwise addition of same-shaped matrices. -/
def addM (A B : Mat) : Mat := ⟨A.r, A.c, fun i j => A.f i j + B.f i j⟩

/-- Elementwise subtraction of same-shaped matrices. -/
def subM (A B : Mat) : Mat := ⟨A.r, A.c, fun i j => A.f i j - B.f i j⟩

/-- Scalar multiple of a matrix. -/
def smul (a : ℚ) (A : Mat) : Mat := ⟨A.r, A.c, fun i j => a * A.f i j⟩

/-- Elementwise product with numpy row/column broadcasting for size-1 axes
(`dA * g_derivative` in `linear_backward` relies on `(1, m) * (n, m)`
broadcasting). -/
def bmul (A B : Mat) : Mat :=
  ⟨max A.r B.r, max A.c B.c, fun i j =>
    A.f (if A.r = 1 then 0 else i) (if A.c = 1 then 0 else j) *
    B.f (if B.r = 1 then 0 else i) (if B.c = 1 then 0 else j)⟩

/-- Row sums `np.sum(A, axis=1, keepdims=True)`: shape `(A.r, 1)`. -/
def sumAxis1 (A : Mat) : Mat :=
  ⟨A.r, 1, fun i _ => ((List.range A.c).map fun j => A.f i j).sum⟩

/-- Scalar clamp `np.clip(x, lo, hi)`. -/
def clipQ (lo hi x : ℚ) : ℚ := if x < lo then lo else if hi < x then hi else x

/-- Elementwise clamp of a matrix. -/
def clipM (lo hi : ℚ) (A : Mat) : Mat := ⟨A.r, A.c, fun i j => clipQ lo hi (A.f i j)⟩

/-- Sum of squared entries `np.sum(np.square(W))`. -/
def sumSquares (W : Mat) : ℚ :=
  ((List.range W.r).map fun i => ((List.range W.c).map fun j => W.f i j ^ 2).sum).sum

/-- The clamp epsilon `1e-15`, hard-coded in `compute_cost`,
`compute_cost_regularization` and `model_backward_propagation`. -/
def epsQ : ℚ := 1 / 10 ^ 15

/-- Source `sigmoid(Z) = 1. / (1. + np.exp(-Z))`, elementwise. -/
def sigmoid (p : Prims) (Z : Mat) : Mat :=
  ⟨Z.r, Z.c, fun i j => 1 / (1 + p.exp (-(Z.f i j)))⟩

/-- Source `tanh(Z) = np.tanh(Z)`, elementwise. -/
def tanhM (p : Prims) (Z : Mat) : Mat := ⟨Z.r, Z.c, fun i j => p.tanh (Z.f i j)⟩

/-- Source `relu(Z) = np.maximum(0, Z)`, elementwise. -/
def relu (Z : Mat) : Mat := ⟨Z.r, Z.c, fun i j => if Z.f i j < 0 then 0 else Z.f i j⟩

/-- Source `tanh_derivative(Z) = 1 - np.power(tanh(Z), 2)`, elementwise. -/
def tanh_derivative (p : Prims) (Z : Mat) : Mat :=
  ⟨Z.r, Z.c, fun i j => 1 - p.tanh (Z.f i j) ^ 2⟩

/-- Source `sigmoid_derivative(Z) = sigmoid(Z) * (1 - sigmoid(Z))`, elementwise. -/
def sigmoid_derivative (p : Prims) (Z : Mat) : Mat :=
  ⟨Z.r, Z.c, fun i j =>
    (1 / (1 + p.exp (-(Z.f i j)))) * (1 - 1 / (1 + p.exp (-(Z.f i j))))⟩

/-- Source `relu_derivative(Z) = Z > 0 * 1`, which by Python precedence is the
boolean array `Z > 0`; numpy arithmetic treats it as the 0/1 matrix embedded
here. -/
def relu_derivative (Z : Mat) : Mat :=
  ⟨Z.r, Z.c, fun i j => if 0 < Z.f i j then 1 else 0⟩

/-- Source `init_random_weights(m, n) = np.random.randn(m, n) / np.sqrt(n)`.
numpy raises `ValueError` for a negative dimension, modelled as `Except.error`;
dimension 0 yields an empty matrix without error. -/
def init_random_weights (p : Prims) (m n : ℤ) : Except String Mat :=
  if m < 0 ∨ n < 0 then Except.error "negative dimensions are not allowed"
  else Except.ok ⟨m.toNat, n.toNat, fun i j => p.randn i j / p.sqrt (n : ℚ)⟩

/-- Source `init_zeros(m) = np.zeros(shape=(m, 1))`, with numpy's negative
dimension error. -/
def init_zeros (m : ℤ) : Except String Mat :=
  if m < 0 then Except.error "negative dimensions are not allowed"
  else Except.ok ⟨m.toNat, 1, fun _ _ => 0⟩

/-- Loop body of `init_params`: iterates over the adjacent pairs
`(layer_units[l-1], layer_units[l])` in order, failing at the first layer
whose dimensions numpy rejects (the shape asserts of the source hold by
construction). -/
def init_params_go (p : Prims) : List (ℤ × ℤ) → Except String (List Mat × List Mat)
  | [] => Except.ok ([], [])
  | nm :: rest =>
    match init_random_weights p nm.2 nm.1 with
    | Except.error e => Except.error e
    | Except.ok W =>
      match init_zeros nm.2 with
      | Except.error e => Except.error e
      | Except.ok b =>
        match init_params_go p rest with
        | Except.error e => Except.error e
        | Except.ok wb => Except.ok (W :: wb.1, b :: wb.2)

/-- Source `init_params(layer_units)`: the loop `for l in range(1, len(layer_units))`
pairs each unit count with its predecessor, which is exactly
`layer_units.zip layer_units.tail`. A list with fewer than 2 entries makes the
loop body run zero times and return `([], [])` normally. -/
def init_params (p : Prims) (layer_units : List ℤ) : Except String (List Mat × List Mat) :=
  init_params_go p (layer_units.zip layer_units.tail)

/-- Source `activation_function(Z, activation)`: string dispatch with a silent
identity fallback (`else: return Z`) for any unrecognized name; no exception
path exists, so the embedding is a total function. -/
def activation_function (p : Prims) (Z : Mat) (activation : String) : Mat :=
  if activation = "sigmoid" then sigmoid p Z
  else if activation = "relu" then relu Z
  else if activation = "tanh" then tanhM p Z
  else Z

/-- Source `linear_forward(A, W, b) = np.dot(W, A) + b`; the shape assert
`Z.shape == (W.shape[0], A.shape[1])` holds by construction here. -/
def linear_forward (A W b : Mat) : Mat := addBias (matMul W A) b

/-- Source `forward_propagation(A_prev, W, b, activation) -> (A, Z)`. -/
def forward_propagation (p : Prims) (A_prev W b : Mat) (activation : String) : Mat × Mat :=
  let Z := linear_forward A_prev W b
  (activation_function p Z activation, Z)

/-- The dict-of-lists cache of `model_forward_propagation`: four parallel
lists keyed `A_prev`, `W`, `b`, `Z`, each appended once per layer in forward
order. -/
structure Caches where
  A_prev : List Mat
  W : List Mat
  b : List Mat
  Z : List Mat

/-- Loop body of `model_forward_propagation` over the per-layer `(W, b)` pairs.
The source selects `activation_functions['hidden']` for `i != L-1` and
`['output']` for the last index, which is exactly the `rest.isEmpty` test on
the remaining pairs. Cache entries are accumulated in forward layer order. -/
def model_forward_go (p : Prims) (af : ActivationConfig) : Mat → List (Mat × Mat) → Mat × Caches
  | A, [] => (A, ⟨[], [], [], []⟩)
  | A, Wb :: rest =>
    let activation := if rest.isEmpty then af.output else af.hidden
    let AZ := forward_propagation p A Wb.1 Wb.2 activation
    let rr := model_forward_go p af AZ.1 rest
    (rr.1, ⟨A :: rr.2.A_prev, Wb.1 :: rr.2.W, Wb.2 :: rr.2.b, AZ.2 :: rr.2.Z⟩)

/-- Source `model_forward_propagation(X, weights, biases, activation_functions)`
(the `verbose` printing is dropped). -/
def model_forward_propagation (p : Prims) (af : ActivationConfig) (X : Mat)
    (weights biases : List Mat) : Mat × Caches :=
  model_forward_go p af X (weights.zip biases)

/-- Source `compute_cost(y, y_pred)`: `m = len(y)` on the original label
vector, `y_pred = y_pred[0]` takes row 0, entries are clamped to
`[1e-15, 1 - 1e-15]`, then the binary cross-entropy sum is scaled by `-1/m`. -/
def compute_cost (p : Prims) (y : List ℚ) (y_pred : Mat) : ℚ :=
  (-1 / (y.length : ℚ)) *
    (((List.range y.length).map fun j =>
      y.getD j 0 * p.log (clipQ epsQ (1 - epsQ) (y_pred.f 0 j)) +
      (1 - y.getD j 0) * p.log (1 - clipQ epsQ (1 - epsQ) (y_pred.f 0 j))).sum)

/-- Source `compute_cost_regularization(y, y_pred, weights, lambda_reg)`:
`np.mean` over the full `(r, c)` prediction matrix (broadcasting the length-c
label vector across rows), plus `(lambda_reg / (2*m)) * sum of squared
weights` with `m = len(y)` on the original label vector. -/
def compute_cost_regularization (p : Prims) (y : List ℚ) (y_pred : Mat)
    (weights : List Mat) (lambda_reg : ℚ) : ℚ :=
  -(1 / ((y_pred.r : ℚ) * (y_pred.c : ℚ))) *
    (((List.range y_pred.r).map fun i => ((List.range y_pred.c).map fun j =>
      y.getD j 0 * p.log (clipQ epsQ (1 - epsQ) (y_pred.f i j)) +
      (1 - y.getD j 0) * p.log (1 - clipQ epsQ (1 - epsQ) (y_pred.f i j))).sum).sum) +
  (lambda_reg / (2 * (y.length : ℚ))) * ((weights.map sumSquares).sum)

/-- Source `derivative_activation(Z, activation)`: string dispatch returning a
matrix for the three known names and the Python scalar `1` (`else: return 1`)
for anything else; the sum type records which of the two the caller receives. -/
def derivative_activation (p : Prims) (Z : Mat) (activation : String) : Mat ⊕ ℚ :=
  if activation = "sigmoid" then Sum.inl (sigmoid_derivative p Z)
  else if activation = "relu" then Sum.inl (relu_derivative Z)
  else if activation = "tanh" then Sum.inl (tanh_derivative p Z)
  else Sum.inr 1

/-- Source `linear_backward(dA, m, g_derivative, A_prev, W, b, lambda_reg)`:
`dZ = dA * g_derivative` (matrix broadcast or scalar, matching what
`derivative_activation` returned), `dW = (dZ·A_prevᵀ) * 1/m` with the optional
`+ lambda_reg * W` inside the parentheses, `db = sum(dZ, axis=1) * 1/m`,
`dA_prev = Wᵀ·dZ`. The shape asserts hold under the layer contract. -/
def linear_backward (dA : Mat) (m : ℚ) (g_derivative : Mat ⊕ ℚ) (A_prev W _b : Mat)
    (lambda_reg : Option ℚ) : Mat × Mat × Mat :=
  let dZ := match g_derivative with
    | Sum.inl M => bmul dA M
    | Sum.inr a => smul a dA
  let dW := match lambda_reg with
    | none => smul (1 / m) (matMul dZ (transposeM A_prev))
    | some lam => smul (1 / m) (addM (matMul dZ (transposeM A_prev)) (smul lam W))
  let db := smul (1 / m) (sumAxis1 dZ)
  (matMul (transposeM W) dZ, dW, db)

/-- Loop body of `model_backward_propagation` over the reversed layer indices
`j = L-1, ..., 0`. Two faithful quirks of the source: the loop variable `dA`
is never reassigned, so every iteration passes the same top-level error signal
to `linear_backward` (the computed `dA_prev` is only stored, not propagated);
and the `output` activation is selected exactly when `i == 0`, i.e. `j = L-1`.
The three `insert(0, ...)` calls make the result lists ascend in forward layer
order, which the `++ [·]` after the recursive call reproduces. -/
def model_backward_go (p : Prims) (af : ActivationConfig) (caches : Caches)
    (lambda_reg : Option ℚ) (L : ℕ) (m : ℚ) (dA : Mat) :
    List ℕ → List Mat × List Mat × List Mat
  | [] => ([], [], [])
  | j :: rest =>
    let activation := if j = L - 1 then af.output else af.hidden
    let g := derivative_activation p (caches.Z.getD j dMat) activation
    let r := linear_backward dA m g (caches.A_prev.getD j dMat) (caches.W.getD j dMat)
      (caches.b.getD j dMat) lambda_reg
    let rr := model_backward_go p af caches lambda_reg L m dA rest
    (rr.1 ++ [r.1], rr.2.1 ++ [r.2.1], rr.2.2 ++ [r.2.2])

/-- Source `model_backward_propagation(A, y, weights, biases, caches,
activation_functions, lambda_reg)`. The source reshapes `y` to `A.shape`
(row-major) and only then takes `m = len(y)`, so the divisor `m` is the ROW
count of `A` (equal to 1 for the `(1, m)` predictions of this network), not
the batch size. `A` is clamped to `[1e-15, 1 - 1e-15]` before the initial
error signal `dA = -(y/A - (1-y)/(1-A))` is formed. -/
def model_backward_propagation (p : Prims) (A : Mat) (y : List ℚ)
    (weights _biases : List Mat) (caches : Caches) (af : ActivationConfig)
    (lambda_reg : Option ℚ) : List Mat × List Mat × List Mat :=
  let L := weights.length
  let m : ℚ := (A.r : ℚ)
  let Acl := clipM epsQ (1 - epsQ) A
  let dA : Mat := ⟨A.r, A.c, fun i j =>
    -(y.getD (i * A.c + j) 0 / Acl.f i j -
      (1 - y.getD (i * A.c + j) 0) / (1 - Acl.f i j))⟩
  model_backward_go p af caches lambda_reg L m dA ((List.range L).reverse)

/-- Source `update_parameters(weights, biases, gradients_W, gradients_b,
learning_rate)`: per layer `W -= lr * dW`, `b -= lr * db` (the in-place numpy
subtraction is value-passed here; `train_nn`'s aliasing of the SAME arrays is
modelled at `train_nn`). -/
def update_parameters (weights biases gradients_W gradients_b : List Mat)
    (learning_rate : ℚ) : List Mat × List Mat :=
  (List.zipWith (fun W g => subM W (smul learning_rate g)) weights gradients_W,
   List.zipWith (fun b g => subM b (smul learning_rate g)) biases gradients_b)

/-- Source `epoch_train(X, y, activation_functions, learning_rate, weights,
biases, lambda_reg)`: forward pass, cost, backward pass, update. Faithful
quirk: when `lambda_reg` is not `None` the cost call is
`compute_cost_regularization(y, A, weights, lambda_reg = 0.01)` — the
regularization strength `0.01` is HARD-CODED at this call site, while the
caller's `lambda_reg` is still the one threaded into the backward pass. -/
def epoch_train (p : Prims) (X : Mat) (y : List ℚ) (af : ActivationConfig)
    (learning_rate : ℚ) (weights biases : List Mat) (lambda_reg : Option ℚ) :
    (List Mat × List Mat) × ℚ × Caches :=
  let fc := model_forward_propagation p af X weights biases
  let cost := match lambda_reg with
    | none => compute_cost p y fc.1
    | some _ => compute_cost_regularization p y fc.1 weights (1 / 100)
  let g := model_backward_propagation p fc.1 y weights biases fc.2 af lambda_reg
  (update_parameters weights biases g.2.1 g.2.2 learning_rate, cost, fc.2)

/-- Per-iteration state of `train_nn`'s loop. `best_taken` records whether the
`best_cost > cost` branch has ever run, i.e. whether `best_weights` in the
source is still `None` or is bound — bound, by `best_weights = weights`, to
the very list object whose arrays `update_parameters` keeps mutating in
place, so no separate best VALUES exist in the source's state. -/
structure LoopState where
  weights : List Mat
  biases : List Mat
  costs : List ℚ
  best_cost : ℚ
  best_iteration : ℕ
  best_taken : Bool

/-- One iteration of `train_nn`'s `for i in range(num_iteration)` loop:
run `epoch_train`, then `if best_cost > cost:` update the best trackers,
then `costs.append(cost)`. -/
def train_step (p : Prims) (X : Mat) (y : List ℚ) (af : ActivationConfig)
    (learning_rate : ℚ) (lambda_reg : Option ℚ) (s : LoopState) (i : ℕ) : LoopState :=
  let r := epoch_train p X y af learning_rate s.weights s.biases lambda_reg
  ⟨r.1.1, r.1.2, s.costs ++ [r.2.1],
   if r.2.1 < s.best_cost then r.2.1 else s.best_cost,
   if r.2.1 < s.best_cost then i + 1 else s.best_iteration,
   if r.2.1 < s.best_cost then true else s.best_taken⟩

/-- Initial loop state of `train_nn`: fresh parameters, empty cost history,
the `best_cost = 1.` sentinel, `best_iteration = 0`, `best_weights = None`. -/
def initState (wb : List Mat × List Mat) : LoopState := ⟨wb.1, wb.2, [], 1, 0, false⟩

/-- State of `train_nn`'s loop after `k` iterations. -/
def trainStateAt (p : Prims) (X : Mat) (y : List ℚ) (af : ActivationConfig)
    (learning_rate : ℚ) (lambda_reg : Option ℚ) (wb : List Mat × List Mat)
    (k : ℕ) : LoopState :=
  (List.range k).foldl (train_step p X y af learning_rate lambda_reg) (initState wb)

/-- Observable outcome of `train_nn`: the returned `best_parameters` dict and
`costs` list, plus the loop-internal best trackers (printed by the source) and
the final live parameters, which the aliasing makes observationally relevant. -/
structure TrainResult where
  best_weights : Option (List Mat)
  best_biases : Option (List Mat)
  best_iteration : ℕ
  best_cost : ℚ
  costs : List ℚ
  final_weights : List Mat
  final_biases : List Mat

/-- Packaging of the terminal loop state into `train_nn`'s return value.
KEY ALIASING FACT of the source: `best_weights = weights` binds the live list
object, and `update_parameters` mutates its numpy arrays in place
(`weights[i] -= ...`), so whenever a snapshot was ever taken the returned
"best" parameters are numerically THE FINAL parameters. The embedding
reproduces exactly that: `some s.weights` (the final weights) when
`best_taken`, `none` otherwise. -/
def mkResult (s : LoopState) : TrainResult :=
  ⟨if s.best_taken then some s.weights else none,
   if s.best_taken then some s.biases else none,
   s.best_iteration, s.best_cost, s.costs, s.weights, s.biases⟩

/-- Source `train_nn(X, y, layer_units, activation_functions, learning_rate,
num_iteration, lambda_reg)` (prints dropped): initialize parameters, run
exactly `num_iteration` iterations of the epoch loop, return the best
parameters dict and the cost history. An exception from `init_params`
propagates to the caller. -/
def train_nn (p : Prims) (X : Mat) (y : List ℚ) (layer_units : List ℤ)
    (af : ActivationConfig) (learning_rate : ℚ) (num_iteration : ℕ)
    (lambda_reg : Option ℚ) : Except String TrainResult :=
  match init_params p layer_units with
  | Except.error e => Except.error e
  | Except.ok wb =>
    Except.ok (mkResult (trainStateAt p X y af learning_rate lambda_reg wb num_iteration))

/-- The `parameters` dict passed to `predict` (`weights`/`biases` keys). -/
structure Params where
  weights : List Mat
  biases : List Mat

/-- Source `predict(X, y, parameters, activation_functions)`: `y` is accepted
and never read. A `(1, m)` zero matrix is allocated with `m = X.shape[1]`,
the forward pass runs once, and the loop over `range(probs.shape[1])` writes
`1` where `probs[0, i] > 0.5` and `0` otherwise; positions the loop never
reaches keep their initial `0`. -/
def predict (p : Prims) (X : Mat) (y : List ℚ) (parameters : Params)
    (af : ActivationConfig) : Mat :=
  let probs := (model_forward_propagation p af X parameters.weights parameters.biases).1
  ⟨1, X.c, fun i j =>
    if i = 0 ∧ j < probs.c then (if 1 / 2 < probs.f 0 j then 1 else 0) else 0⟩

/-- Stated from the SPEC for claim C2: `dW = (dZ · A_prevᵀ)/m` without
regularization and `(dZ · A_prevᵀ + λ·W)/m` with L2 regularization, where `m`
is the batch size (number of sample columns). To be compared with what
`linear_backward` actually divides by. -/
def spec_dW (dZ A_prev W : Mat) (m : ℚ) (lambda_reg : Option ℚ) : Mat :=
  match lambda_reg with
  | none => smul (1 / m) (matMul dZ (transposeM A_prev))
  | some lam => smul (1 / m) (addM (matMul dZ (transposeM A_prev)) (smul lam W))

/-- Stated from the SPEC for claim C2: `db = sum(dZ, over batch axis)/m` with
`m` the batch size. -/
def spec_db (dZ : Mat) (m : ℚ) : Mat := smul (1 / m) (sumAxis1 dZ)

/-- Shape contract of the data model: `units` is the LayerSpec, and layer `l`
(1-indexed) carries a weight matrix of shape `(units[l], units[l-1])` and a
bias column of shape `(units[l], 1)`. -/
def shapesOk : List ℕ → List Mat → List Mat → Prop
  | u0 :: u1 :: us, W :: ws, b :: bs =>
    W.r = u1 ∧ W.c = u0 ∧ b.r = u1 ∧ b.c = 1 ∧ shapesOk (u1 :: us) ws bs
  | [_], [], [] => True
  | _, _, _ => False

/-- Concrete primitives for sample runs: `log` constantly `-1/2`, so the
first-epoch cost of the 1×1 sample network is `1/2` and beats the sentinel. -/
def qPrims : Prims := ⟨fun _ => 0, fun _ => 0, fun _ => -(1 / 2), fun _ => 1, fun _ _ => 1⟩

/-- Concrete primitives with `log` constantly `-2`, making every epoch cost of
the 1×1 sample network equal to `2`, which never beats the `1.0` sentinel. -/
def cPrims : Prims := ⟨fun _ => 0, fun _ => 0, fun _ => -2, fun _ => 1, fun _ _ => 1⟩

/-- Concrete primitives with `log` constantly `0`, making the cross-entropy
part of the cost vanish so the regularization term is isolated. -/
def zPrims : Prims := ⟨fun _ => 0, fun _ => 0, fun _ => 0, fun _ => 1, fun _ _ => 1⟩

/-- Activation configuration using a name outside the recognized set, which
the dispatch silently maps to the identity activation. -/
def afId : ActivationConfig := ⟨"identity", "identity"⟩

/-- Sample input: one feature, one sample, value `1/2`. -/
def Xc : Mat := ⟨1, 1, fun _ _ => 1 / 2⟩

/-- Sample 1×1 weight matrix with entry `1`. -/
def W1 : Mat := ⟨1, 1, fun _ _ => 1⟩

/-- Sample 1×1 bias with entry `0`. -/
def b1 : Mat := ⟨1, 1, fun _ _ => 0⟩

/-- Fallback `TrainResult` (never hit: the sample runs all succeed). -/
def dRes : TrainResult := ⟨none, none, 0, 0, [], [], []⟩

/-- Parameters produced by `init_params qPrims [1, 1]`. -/
def wb11 : List Mat × List Mat := (init_params qPrims [1, 1]).toOption.getD ([], [])

/-- Two-epoch sample training run on the 1×1 network (`lr = 1/100`). -/
def run2 : TrainResult :=
  (train_nn qPrims Xc [1] [1, 1] afId (1 / 100) 2 none).toOption.getD dRes

/-- One-epoch prefix of the same training run. -/
def run1 : TrainResult :=
  (train_nn qPrims Xc [1] [1, 1] afId (1 / 100) 1 none).toOption.getD dRes

/-- One-epoch training run whose cost `2` never beats the `1.0` sentinel. -/
def runC5 : TrainResult :=
  (train_nn cPrims Xc [1] [1, 1] afId (1 / 100) 1 none).toOption.getD dRes

/-- Entry `[0][0]` of the first returned best weight matrix. -/
def bw00 (res : TrainResult) : ℚ := ((res.best_weights.getD []).getD 0 dMat).f 0 0

/-- Prediction matrix of shape `(1, 2)`: batch of 2 samples, both entries `1/2`. -/
def A2c : Mat := ⟨1, 2, fun _ _ => 1 / 2⟩

/-- Cached layer input for the 2-sample backward call: entries `1` and `3`. -/
def APrev2 : Mat := ⟨1, 2, fun _ j => if j = 0 then 1 else 3⟩

/-- Cached pre-activation for the 2-sample backward call (value irrelevant to
the identity derivative). -/
def Z2c : Mat := ⟨1, 2, fun _ _ => 0⟩

/-- Single-layer cache for the 2-sample backward call. -/
def caches2 : Caches := ⟨[APrev2], [W1], [b1], [Z2c]⟩

/-- The error signal `dZ` of the 2-sample backward call: `dA · 1` with
`dA = -(y/A - (1-y)/(1-A))` at `y = [1,1]`, `A = [[1/2, 1/2]]`, i.e. `[[-2, -2]]`. -/
def dZ2c : Mat := ⟨1, 2, fun _ _ => -2⟩

/-- Gradients returned by the backward pass on the 2-sample single-layer call. -/
def back2 : List Mat × List Mat × List Mat :=
  model_backward_propagation qPrims A2c [1, 1] [W1] [b1] caches2 afId none

/-- Forward output of the 1×1 sample network under `zPrims`. -/
def fwd3 : Mat := (model_forward_propagation zPrims afId Xc [W1] [b1]).1

/-- Sample `parameters` dict for `predict`. -/
def P1 : Params := ⟨[W1], [b1]⟩

/-- Helper fact: the fallback activation name used in the sample runs is not
the sigmoid name. -/
theorem str_ne_1 : ("identity" : String) ≠ "sigmoid" := by decide

/-- Helper fact: the fallback activation name is not the relu name. -/
theorem str_ne_2 : ("identity" : String) ≠ "relu" := by decide

/-- Helper fact: the fallback activation name is not the tanh name. -/
theorem str_ne_3 : ("identity" : String) ≠ "tanh" := by decide

/-- Activation dispatch preserves the row count of its input. -/
theorem activation_function_r (p : Prims) (Z : Mat) (a : String) :
    (activation_function p Z a).r = Z.r := by
  unfold activation_function
  split
  · rfl
  · split
    · rfl
    · split
      · rfl
      · rfl

/-- Activation dispatch preserves the column count of its input. -/
theorem activation_function_c (p : Prims) (Z : Mat) (a : String) :
    (activation_function p Z a).c = Z.c := by
  unfold activation_function
  split
  · rfl
  · split
    · rfl
    · split
      · rfl
      · rfl

/-- Shape invariant of the forward loop: under the layer contract, the final
activation has `units[L]` rows and the batch width of the input, and every
cache entry for layer `l` carries the shapes declared by the LayerSpec, in
forward layer order. -/
theorem forward_go_dims (p : Prims) (af : ActivationConfig) :
    ∀ (ws : List Mat) (units : List ℕ) (bs : List Mat) (A : Mat),
    shapesOk units ws bs → A.r = units.headD 0 →
    ((model_forward_go p af A (ws.zip bs)).1.r = units.getD (units.length - 1) 0 ∧
     (model_forward_go p af A (ws.zip bs)).1.c = A.c) ∧
    ((model_forward_go p af A (ws.zip bs)).2.A_prev.length = ws.length ∧
     (model_forward_go p af A (ws.zip bs)).2.W.length = ws.length ∧
     (model_forward_go p af A (ws.zip bs)).2.b.length = ws.length ∧
     (model_forward_go p af A (ws.zip bs)).2.Z.length = ws.length) ∧
    (∀ l, l < ws.length →
      ((model_forward_go p af A (ws.zip bs)).2.A_prev.getD l dMat).r = units.getD l 0 ∧
      ((model_forward_go p af A (ws.zip bs)).2.A_prev.getD l dMat).c = A.c ∧
      ((model_forward_go p af A (ws.zip bs)).2.W.getD l dMat).r = units.getD (l + 1) 0 ∧
      ((model_forward_go p af A (ws.zip bs)).2.W.getD l dMat).c = units.getD l 0 ∧
      ((model_forward_go p af A (ws.zip bs)).2.b.getD l dMat).r = units.getD (l + 1) 0 ∧
      ((model_forward_go p af A (ws.zip bs)).2.b.getD l dMat).c = 1 ∧
      ((model_forward_go p af A (ws.zip bs)).2.Z.getD l dMat).r = units.getD (l + 1) 0 ∧
      ((model_forward_go p af A (ws.zip bs)).2.Z.getD l dMat).c = A.c) := by
  intro ws
  induction ws with
  | nil =>
    intro units bs A hok hA
    cases units with
    | nil => simp [shapesOk] at hok
    | cons u t =>
      cases t with
      | nil =>
        cases bs with
        | nil =>
          refine ⟨⟨hA, rfl⟩, ⟨rfl, rfl, rfl, rfl⟩, ?_⟩
          intro l hl
          exact absurd hl (by simp)
        | cons b bs => simp [shapesOk] at hok
      | cons u1 us => simp [shapesOk] at hok
  | cons W ws ih =>
    intro units bs A hok hA
    cases units with
    | nil => simp [shapesOk] at hok
    | cons u0 t =>
      cases t with
      | nil => simp [shapesOk] at hok
      | cons u1 us =>
        cases bs with
        | nil => simp [shapesOk] at hok
        | cons b bs =>
          obtain ⟨hWr, hWc, hbr, hbc, hok2⟩ := hok
          have hA2r : (activation_function p (linear_forward A W b)
              (if (ws.zip bs).isEmpty then af.output else af.hidden)).r = u1 := by
            rw [activation_function_r]; exact hWr
          have hA2c : (activation_function p (linear_forward A W b)
              (if (ws.zip bs).isEmpty then af.output else af.hidden)).c = A.c := by
            rw [activation_function_c]; rfl
          obtain ⟨⟨ihfr, ihfc⟩, ⟨ihl1, ihl2, ihl3, ihl4⟩, ihall⟩ :=
            ih (u1 :: us) bs (activation_function p (linear_forward A W b)
              (if (ws.zip bs).isEmpty then af.output else af.hidden)) hok2 hA2r
          have hidx : (u0 :: u1 :: us).getD ((u0 :: u1 :: us).length - 1) 0 =
              (u1 :: us).getD ((u1 :: us).length - 1) 0 := by
            simp [List.getD_cons_succ]
          refine ⟨⟨?_, ?_⟩, ⟨?_, ?_, ?_, ?_⟩, ?_⟩
          · rw [hidx]; exact ihfr
          · exact ihfc.trans hA2c
          · exact congrArg (· + 1) ihl1
          · exact congrArg (· + 1) ihl2
          · exact congrArg (· + 1) ihl3
          · exact congrArg (· + 1) ihl4
          · intro l hl
            cases l with
            | zero => exact ⟨hA, rfl, hWr, hWc, hbr, hbc, hWr, rfl⟩
            | succ l =>
              obtain ⟨h1, h2, h3, h4, h5, h6, h7, h8⟩ := ihall l (by
                simp only [List.length_cons] at hl
                omega)
              exact ⟨h1, h2.trans hA2c, h3, h4, h5, h6, h7, h8.trans hA2c⟩

/-- Unfolding of the training loop by one iteration. -/
theorem trainStateAt_succ (p : Prims) (X : Mat) (y : List ℚ) (af : ActivationConfig)
    (lr : ℚ) (lam : Option ℚ) (wb : List Mat × List Mat) (k : ℕ) :
    trainStateAt p X y af lr lam wb (k + 1) =
      train_step p X y af lr lam (trainStateAt p X y af lr lam wb k) k := by
  unfold trainStateAt
  rw [List.range_succ, List.foldl_append]
  rfl

/-- After `k` iterations the cost history holds exactly `k` entries. -/
theorem trainStateAt_costs_length (p : Prims) (X : Mat) (y : List ℚ) (af : ActivationConfig)
    (lr : ℚ) (lam : Option ℚ) (wb : List Mat × List Mat) (k : ℕ) :
    (trainStateAt p X y af lr lam wb k).costs.length = k := by
  induction k with
  | zero => rfl
  | succ k ih =>
    rw [trainStateAt_succ]
    show ((trainStateAt p X y af lr lam wb k).costs ++ [_]).length = k + 1
    rw [List.length_append, ih]
    rfl

/-- The recorded best iteration never exceeds the number of iterations run. -/
theorem trainStateAt_bi_le (p : Prims) (X : Mat) (y : List ℚ) (af : ActivationConfig)
    (lr : ℚ) (lam : Option ℚ) (wb : List Mat × List Mat) (k : ℕ) :
    (trainStateAt p X y af lr lam wb k).best_iteration ≤ k := by
  induction k with
  | zero => exact Nat.le_refl 0
  | succ k ih =>
    rw [trainStateAt_succ]
    show (if _ < _ then k + 1 else (trainStateAt p X y af lr lam wb k).best_iteration) ≤ k + 1
    split
    · exact Nat.le_refl (k + 1)
    · exact Nat.le_succ_of_le ih

/-- One loop iteration never increases the recorded best cost. -/
theorem train_step_bc_le (p : Prims) (X : Mat) (y : List ℚ) (af : ActivationConfig)
    (lr : ℚ) (lam : Option ℚ) (s : LoopState) (i : ℕ) :
    (train_step p X y af lr lam s i).best_cost ≤ s.best_cost := by
  show (if _ < s.best_cost then _ else s.best_cost) ≤ s.best_cost
  split
  · next h => exact le_of_lt h
  · exact le_refl _

/-- The recorded best cost is non-increasing in the iteration index. -/
theorem trainStateAt_bc_mono (p : Prims) (X : Mat) (y : List ℚ) (af : ActivationConfig)
    (lr : ℚ) (lam : Option ℚ) (wb : List Mat × List Mat) (j k : ℕ) (hjk : j ≤ k) :
    (trainStateAt p X y af lr lam wb k).best_cost ≤
      (trainStateAt p X y af lr lam wb j).best_cost := by
  induction k with
  | zero =>
    have : j = 0 := Nat.le_zero.mp hjk
    subst this
    exact le_refl _
  | succ k ih =>
    rcases Nat.lt_or_ge j (k + 1) with h | h
    · have h2 : j ≤ k := Nat.lt_succ_iff.mp h
      calc (trainStateAt p X y af lr lam wb (k + 1)).best_cost
          ≤ (trainStateAt p X y af lr lam wb k).best_cost := by
            rw [trainStateAt_succ]
            exact train_step_bc_le p X y af lr lam _ k
        _ ≤ (trainStateAt p X y af lr lam wb j).best_cost := ih h2
    · have : j = k + 1 := Nat.le_antisymm hjk h
      subst this
      exact le_refl _

/-- Whenever a snapshot has been taken (`best_iteration ≥ 1`), the cost
recorded at position `best_iteration - 1` of the history equals the recorded
best cost. -/
theorem trainStateAt_best_inv (p : Prims) (X : Mat) (y : List ℚ) (af : ActivationConfig)
    (lr : ℚ) (lam : Option ℚ) (wb : List Mat × List Mat) (k : ℕ) :
    1 ≤ (trainStateAt p X y af lr lam wb k).best_iteration →
      (trainStateAt p X y af lr lam wb k).costs.getD
        ((trainStateAt p X y af lr lam wb k).best_iteration - 1) 0 =
      (trainStateAt p X y af lr lam wb k).best_cost := by
  induction k with
  | zero => intro h; exact absurd h (by simp [trainStateAt, initState])
  | succ k ih =>
    intro h
    rw [trainStateAt_succ] at h ⊢
    set s := trainStateAt p X y af lr lam wb k with hs
    set cost := (epoch_train p X y af lr s.weights s.biases lam).2.1 with hcost
    by_cases hlt : cost < s.best_cost
    · show (s.costs ++ [cost]).getD ((if cost < s.best_cost then k + 1 else s.best_iteration) - 1) 0 =
        (if cost < s.best_cost then cost else s.best_cost)
      rw [if_pos hlt, if_pos hlt]
      have hlen : s.costs.length = k := by rw [hs]; exact trainStateAt_costs_length p X y af lr lam wb k
      have : k + 1 - 1 = s.costs.length := by omega
      rw [this, List.getD_append_right s.costs [cost] 0 s.costs.length (le_refl _)]
      simp
    · show (s.costs ++ [cost]).getD ((if cost < s.best_cost then k + 1 else s.best_iteration) - 1) 0 =
        (if cost < s.best_cost then cost else s.best_cost)
      rw [if_neg hlt, if_neg hlt]
      have h1 : 1 ≤ s.best_iteration := by
        have := h
        rw [show (train_step p X y af lr lam s k).best_iteration =
          (if cost < s.best_cost then k + 1 else s.best_iteration) from rfl, if_neg hlt] at this
        exact this
      have hle : s.best_iteration ≤ k := by
        rw [hs]; exact trainStateAt_bi_le p X y af lr lam wb k
      have hlen : s.costs.length = k := by rw [hs]; exact trainStateAt_costs_length p X y af lr lam wb k
      rw [List.getD_append s.costs [cost] 0 (s.best_iteration - 1) (by omega)]
      exact ih h1

/-- Entry `i` of the cost history after `k > i` iterations is the cost computed
by `epoch_train` from the state entering iteration `i`. -/
theorem trainStateAt_costs_getD (p : Prims) (X : Mat) (y : List ℚ) (af : ActivationConfig)
    (lr : ℚ) (lam : Option ℚ) (wb : List Mat × List Mat) (k i : ℕ) (h : i < k) :
    (trainStateAt p X y af lr lam wb k).costs.getD i 0 =
      (epoch_train p X y af lr (trainStateAt p X y af lr lam wb i).weights
        (trainStateAt p X y af lr lam wb i).biases lam).2.1 := by
  induction k with
  | zero => exact absurd h (by omega)
  | succ k ih =>
    rw [trainStateAt_succ]
    set s := trainStateAt p X y af lr lam wb k with hs
    have hlen : s.costs.length = k := by rw [hs]; exact trainStateAt_costs_length p X y af lr lam wb k
    show (s.costs ++ [(epoch_train p X y af lr s.weights s.biases lam).2.1]).getD i 0 = _
    rcases Nat.lt_or_ge i k with h2 | h2
    · rw [List.getD_append s.costs _ 0 i (by omega)]
      exact ih h2
    · have : i = k := by omega
      subst this
      rw [List.getD_append_right s.costs _ 0 i (by omega)]
      simp [hlen]

/-- Successful initialization makes `train_nn` return the packaged state of
the loop after `num_iteration` iterations. -/
theorem train_nn_ok (p : Prims) (X : Mat) (y : List ℚ) (layer_units : List ℤ)
    (af : ActivationConfig) (lr : ℚ) (N : ℕ) (lam : Option ℚ)
    (wb0 : List Mat × List Mat) (hinit : init_params p layer_units = Except.ok wb0) :
    train_nn p X y layer_units af lr N lam =
      Except.ok (mkResult (trainStateAt p X y af lr lam wb0 N)) := by
  unfold train_nn
  rw [hinit]

/-- Claim C1 (code bug, evaluation at the failing input): the spec says the
best snapshot is a deep copy decoupled from later updates, but the source's
`best_weights = weights` aliases the live parameter list mutated in place. On
the 1×1 sample network the loss of epoch 1 (`1/2`) beats the sentinel and
epoch 2 does not improve it, so both a 2-epoch run and its 1-epoch prefix
record `best_iteration = 1`; yet the 2-epoch run returns `2141/2100` as the
best weight — the value AFTER the epoch-2 update — while the parameter value
at the recorded best epoch is `101/100`. -/
theorem C1_best_snapshot_aliasing :
    run2.best_iteration = 1 ∧ run1.best_iteration = 1 ∧
    bw00 run1 = 101 / 100 ∧ bw00 run2 = 2141 / 2100 ∧ bw00 run2 ≠ bw00 run1 := by
  norm_num [run1, run2, bw00, train_nn, init_params, init_params_go, init_random_weights,
    init_zeros, trainStateAt, initState, train_step, epoch_train, mkResult,
    model_forward_propagation, model_forward_go, forward_propagation, linear_forward,
    activation_function, matMul, addBias, compute_cost, clipQ, epsQ,
    model_backward_propagation, model_backward_go, derivative_activation, linear_backward,
    bmul, smul, sumAxis1, transposeM, clipM, update_parameters, subM, addM,
    qPrims, Xc, W1, b1, dMat, dRes, afId, List.range_succ,
    Except.toOption, Option.getD, str_ne_1, str_ne_2, str_ne_3]

/-- Claim C2 (code bug, evaluation at the failing input): the spec says the
gradient divisor `m` is the batch size, but `model_backward_propagation` takes
`m = len(y)` AFTER reshaping `y` to the `(1, m)` prediction shape, so it
divides by the row count 1. On a single-layer call with batch size 2
(`A = [[1/2, 1/2]]`, `y = [1, 1]`, cached `A_prev = [[1, 3]]`, identity output
activation) the code returns `dW = [[-8]]` and `db = [[-4]]`, whereas the
spec's formulas with `m = 2` — the error signal being `dZ = [[-2, -2]]` —
give `[[-4]]` and `[[-2]]`. -/
theorem C2_gradient_divisor_bug :
    ((back2.2.1.getD 0 dMat).f 0 0 = -8) ∧ ((back2.2.2.getD 0 dMat).f 0 0 = -4) ∧
    (spec_dW dZ2c APrev2 W1 2 none).f 0 0 = -4 ∧ (spec_db dZ2c 2).f 0 0 = -2 ∧
    ((-8 : ℚ) ≠ -4) ∧ ((-4 : ℚ) ≠ -2) := by
  norm_num [back2, spec_dW, spec_db, dZ2c, APrev2, A2c, caches2, Z2c,
    model_backward_propagation, model_backward_go, derivative_activation, linear_backward,
    bmul, smul, sumAxis1, transposeM, clipM, clipQ, epsQ, matMul, addM,
    qPrims, W1, b1, dMat, afId, List.range_succ, str_ne_1, str_ne_2, str_ne_3]

/-- Claim C3 (code bug, evaluation at the failing input): the spec says the
recorded regularized loss uses the caller-supplied λ, but `epoch_train` calls
`compute_cost_regularization(..., lambda_reg = 0.01)` with the strength
hard-coded. With caller λ = 1 on the 1×1 sample network (weight 1, zero bias,
`log` constantly 0 isolating the penalty), the recorded epoch cost is
`1/200` = `(0.01/(2·1))·1`, while the spec's formula with the caller's λ = 1 —
computed by the same `compute_cost_regularization` applied to the same forward
output — gives `1/2`. -/
theorem C3_lambda_hardcoded :
    (epoch_train zPrims Xc [1] afId 1 [W1] [b1] (some 1)).2.1 = 1 / 200 ∧
    compute_cost_regularization zPrims [1] fwd3 [W1] 1 = 1 / 2 ∧
    ((1 / 200 : ℚ) ≠ 1 / 2) := by
  norm_num [epoch_train, fwd3, compute_cost_regularization, sumSquares,
    model_forward_propagation, model_forward_go, forward_propagation, linear_forward,
    activation_function, matMul, addBias, clipQ, epsQ,
    model_backward_propagation, model_backward_go, derivative_activation, linear_backward,
    bmul, smul, sumAxis1, transposeM, clipM, update_parameters, subM, addM,
    zPrims, Xc, W1, b1, dMat, afId, List.range_succ, str_ne_1, str_ne_2, str_ne_3]

/-- Claim C4, counterexample: the claim says initialization fails whenever the
LayerSpec has fewer than 2 entries or contains a unit count ≤ 0, but
`init_params` has no validation at all: the single-entry spec `[5]` makes the
loop run zero times and return `([], [])` normally, and the spec `[3, 0, 2]`
containing a zero unit count also returns normally (numpy accepts dimension 0;
only negative dimensions raise). -/
theorem C4_no_failure_short_spec :
    init_params qPrims [5] = Except.ok ([], []) ∧
    (init_params qPrims [3, 0, 2]).toOption.isSome = true := ⟨rfl, rfl⟩

/-- Claim C4 (amended): initialization signals an error only where numpy does
(a negative dimension); for every LayerSpec of length L+1 with all entries
positive it returns normally with L weight matrices of shape
`(units[l], units[l-1])` and L all-zero bias columns of shape `(units[l], 1)`. -/
theorem C4_init_shapes (p : Prims) (layer_units : List ℤ)
    (hpos : ∀ u, u ∈ layer_units → 0 < u) :
    ∃ ws bs, init_params p layer_units = Except.ok (ws, bs) ∧
      ws.length = layer_units.length - 1 ∧ bs.length = layer_units.length - 1 ∧
      ∀ l, l + 1 < layer_units.length →
        (ws.getD l dMat).r = (layer_units.getD (l + 1) 0).toNat ∧
        (ws.getD l dMat).c = (layer_units.getD l 0).toNat ∧
        (bs.getD l dMat).r = (layer_units.getD (l + 1) 0).toNat ∧
        (bs.getD l dMat).c = 1 ∧
        ∀ i j, (bs.getD l dMat).f i j = 0 := by
  induction layer_units with
  | nil =>
    refine ⟨[], [], rfl, rfl, rfl, ?_⟩
    intro l hl
    exact absurd hl (by simp)
  | cons u0 t ih =>
    cases t with
    | nil =>
      refine ⟨[], [], rfl, rfl, rfl, ?_⟩
      intro l hl
      exact absurd hl (by simp)
    | cons u1 us =>
      have h0 : 0 < u0 := hpos u0 (by simp)
      have h1 : 0 < u1 := hpos u1 (by simp)
      obtain ⟨ws, bs, hgo, hwl, hbl, hfacts⟩ :=
        ih (fun u hu => hpos u (List.mem_cons_of_mem _ hu))
      refine ⟨⟨u1.toNat, u0.toNat, fun i j => p.randn i j / p.sqrt (u0 : ℚ)⟩ :: ws,
        ⟨u1.toNat, 1, fun _ _ => 0⟩ :: bs, ?_, ?_, ?_, ?_⟩
      · have hW : init_random_weights p u1 u0 =
            Except.ok ⟨u1.toNat, u0.toNat, fun i j => p.randn i j / p.sqrt (u0 : ℚ)⟩ := by
          unfold init_random_weights
          rw [if_neg (by omega)]
        have hb : init_zeros u1 = Except.ok ⟨u1.toNat, 1, fun _ _ => 0⟩ := by
          unfold init_zeros
          rw [if_neg (by omega)]
        have hrest : init_params_go p ((u1 :: us).zip us) = Except.ok (ws, bs) := hgo
        show init_params_go p ((u0 :: u1 :: us).zip (u1 :: us)) = _
        rw [List.zip_cons_cons]
        unfold init_params_go
        rw [hW, hb, hrest]
      · simp only [List.length_cons] at hwl ⊢
        omega
      · simp only [List.length_cons] at hbl ⊢
        omega
      · intro l hl
        cases l with
        | zero => exact ⟨rfl, rfl, rfl, rfl, fun i j => rfl⟩
        | succ l =>
          have := hfacts l (by
            simp only [List.length_cons] at hl ⊢
            omega)
          simpa using this

/-- Witness for C4_init_shapes at the LayerSpec `[2, 3, 1]`. -/
theorem C4_init_shapes_witness :
    ∃ ws bs, init_params qPrims [2, 3, 1] = Except.ok (ws, bs) ∧
      ws.length = 2 ∧ bs.length = 2 ∧
      ∀ l, l + 1 < 3 →
        (ws.getD l dMat).r = (([2, 3, 1] : List ℤ).getD (l + 1) 0).toNat ∧
        (ws.getD l dMat).c = (([2, 3, 1] : List ℤ).getD l 0).toNat ∧
        (bs.getD l dMat).r = (([2, 3, 1] : List ℤ).getD (l + 1) 0).toNat ∧
        (bs.getD l dMat).c = 1 ∧
        ∀ i j, (bs.getD l dMat).f i j = 0 :=
  C4_init_shapes qPrims [2, 3, 1] (by decide)

/-- Claim C5, counterexample: with `log` constantly `-2` the single epoch of
the 1×1 sample run records cost `2`, which never beats the `1.0` sentinel, so
at termination `best_iteration = 0` and `best_cost = 1` while the loss history
is `[2]`; the claimed identity `loss_history[best_iteration - 1] = best_loss`
fails (`2 ≠ 1` — and under Python's `-1` indexing the last entry is likewise
`2`). -/
theorem C5_sentinel_mismatch :
    runC5.best_iteration = 0 ∧ runC5.best_cost = 1 ∧ runC5.costs = [2] ∧
    runC5.costs.getD (runC5.best_iteration - 1) 0 = 2 ∧ ((2 : ℚ) ≠ 1) := by
  norm_num [runC5, train_nn, init_params, init_params_go, init_random_weights, init_zeros,
    trainStateAt, initState, train_step, epoch_train, mkResult,
    model_forward_propagation, model_forward_go, forward_propagation, linear_forward,
    activation_function, matMul, addBias, compute_cost, clipQ, epsQ,
    model_backward_propagation, model_backward_go, derivative_activation, linear_backward,
    bmul, smul, sumAxis1, transposeM, clipM, update_parameters, subM, addM,
    cPrims, Xc, W1, b1, dMat, dRes, afId, List.range_succ,
    Except.toOption, Option.getD, str_ne_1, str_ne_2, str_ne_3]

/-- Claim C5 (amended): for every training run the recorded `best_loss` is
non-increasing in the epoch index; and WHENEVER at least one epoch improved on
the `1.0` sentinel (equivalently `best_iteration ≥ 1`), the recorded
`best_iteration` satisfies `loss_history[best_iteration - 1] = best_loss`. -/
theorem C5_best_tracking (p : Prims) (X : Mat) (y : List ℚ) (layer_units : List ℤ)
    (af : ActivationConfig) (lr : ℚ) (N : ℕ) (lam : Option ℚ)
    (wb0 : List Mat × List Mat) (res : TrainResult)
    (hinit : init_params p layer_units = Except.ok wb0)
    (hrun : train_nn p X y layer_units af lr N lam = Except.ok res) :
    (∀ j k, j ≤ k → k ≤ N →
      (trainStateAt p X y af lr lam wb0 k).best_cost ≤
        (trainStateAt p X y af lr lam wb0 j).best_cost) ∧
    (1 ≤ res.best_iteration →
      res.costs.getD (res.best_iteration - 1) 0 = res.best_cost) := by
  have hres : res = mkResult (trainStateAt p X y af lr lam wb0 N) := by
    have h2 := train_nn_ok p X y layer_units af lr N lam wb0 hinit
    rw [hrun] at h2
    exact Except.ok.inj h2
  constructor
  · intro j k hjk _
    exact trainStateAt_bc_mono p X y af lr lam wb0 j k hjk
  · rw [hres]
    exact trainStateAt_best_inv p X y af lr lam wb0 N

/-- Witness for C5_best_tracking on the 2-epoch sample run (whose
`best_iteration` is 1). -/
theorem C5_best_tracking_witness :
    (∀ j k, j ≤ k → k ≤ 2 →
      (trainStateAt qPrims Xc [1] afId (1 / 100) none wb11 k).best_cost ≤
        (trainStateAt qPrims Xc [1] afId (1 / 100) none wb11 j).best_cost) ∧
    (1 ≤ run2.best_iteration →
      run2.costs.getD (run2.best_iteration - 1) 0 = run2.best_cost) :=
  C5_best_tracking qPrims Xc [1] [1, 1] afId (1 / 100) 2 none wb11 run2 rfl rfl

/-- Claim C6: for every input `X` and every parameter set shaped to a
LayerSpec, `predict` returns a `(1, m)` label matrix with `m = X.c`, whose
entry at column `j` is 1 exactly when the forward-pass output probability at
column `j` is strictly greater than `1/2`, and 0 otherwise. -/
theorem C6_predict_threshold (p : Prims) (X : Mat) (y : List ℚ) (parameters : Params)
    (af : ActivationConfig) (units : List ℕ)
    (hok : shapesOk units parameters.weights parameters.biases)
    (hX : X.r = units.headD 0) :
    (predict p X y parameters af).r = 1 ∧
    (predict p X y parameters af).c = X.c ∧
    ∀ j, j < X.c →
      (predict p X y parameters af).f 0 j =
        if 1 / 2 < (model_forward_propagation p af X parameters.weights parameters.biases).1.f 0 j
        then 1 else 0 := by
  have h : (model_forward_propagation p af X parameters.weights parameters.biases).1.c = X.c :=
    (forward_go_dims p af parameters.weights units parameters.biases X hok hX).1.2
  refine ⟨rfl, rfl, ?_⟩
  intro j hj
  have hc : j < (model_forward_propagation p af X parameters.weights parameters.biases).1.c := by
    rw [h]; exact hj
  simp [predict, hc]

/-- Witness for C6_predict_threshold on the 1×1 sample network. -/
theorem C6_predict_threshold_witness :
    (predict qPrims Xc [1] P1 afId).r = 1 ∧
    (predict qPrims Xc [1] P1 afId).c = Xc.c ∧
    ∀ j, j < Xc.c →
      (predict qPrims Xc [1] P1 afId).f 0 j =
        if 1 / 2 < (model_forward_propagation qPrims afId Xc P1.weights P1.biases).1.f 0 j
        then 1 else 0 :=
  C6_predict_threshold qPrims Xc [1] P1 afId [1, 1] ⟨rfl, rfl, rfl, rfl, trivial⟩ rfl

/-- Claim C7: for every activation name outside the recognized set, the
forward dispatch returns its input unchanged and the derivative dispatch
returns the Python scalar 1 — both are total functions, so no exception is
possible. -/
theorem C7_identity_fallback (p : Prims) (activation : String) (Z : Mat)
    (h : ¬ (activation = "sigmoid" ∨ activation = "relu" ∨ activation = "tanh")) :
    activation_function p Z activation = Z ∧
    derivative_activation p Z activation = Sum.inr 1 := by
  push_neg at h
  constructor
  · simp [activation_function, h.1, h.2.1, h.2.2]
  · simp [derivative_activation, h.1, h.2.1, h.2.2]

/-- Witness for C7_identity_fallback at the unrecognized name it is fed. -/
theorem C7_identity_fallback_witness :
    activation_function qPrims Xc "softmax" = Xc ∧
    derivative_activation qPrims Xc "softmax" = Sum.inr 1 :=
  C7_identity_fallback qPrims "softmax" Xc (by decide)

/-- Claim C8: for every LayerSpec, parameter set shaped to it, and input of
shape `(units[0], m)`, the forward pass returns `A_final` of shape
`(units[L], m)`, and the cache entry for layer `l` holds `A_prev` of shape
`(units[l], m)`, `W` of shape `(units[l+1], units[l])`, `b` of shape
`(units[l+1], 1)` and `Z` of shape `(units[l+1], m)`, stored in forward layer
order (entry `l` of each parallel list belongs to layer `l+1`). -/
theorem C8_forward_shapes (p : Prims) (af : ActivationConfig) (units : List ℕ)
    (X : Mat) (weights biases : List Mat)
    (hok : shapesOk units weights biases) (hX : X.r = units.headD 0) :
    ((model_forward_propagation p af X weights biases).1.r = units.getD (units.length - 1) 0 ∧
     (model_forward_propagation p af X weights biases).1.c = X.c) ∧
    ((model_forward_propagation p af X weights biases).2.A_prev.length = weights.length ∧
     (model_forward_propagation p af X weights biases).2.W.length = weights.length ∧
     (model_forward_propagation p af X weights biases).2.b.length = weights.length ∧
     (model_forward_propagation p af X weights biases).2.Z.length = weights.length) ∧
    (∀ l, l < weights.length →
      ((model_forward_propagation p af X weights biases).2.A_prev.getD l dMat).r = units.getD l 0 ∧
      ((model_forward_propagation p af X weights biases).2.A_prev.getD l dMat).c = X.c ∧
      ((model_forward_propagation p af X weights biases).2.W.getD l dMat).r = units.getD (l + 1) 0 ∧
      ((model_forward_propagation p af X weights biases).2.W.getD l dMat).c = units.getD l 0 ∧
      ((model_forward_propagation p af X weights biases).2.b.getD l dMat).r = units.getD (l + 1) 0 ∧
      ((model_forward_propagation p af X weights biases).2.b.getD l dMat).c = 1 ∧
      ((model_forward_propagation p af X weights biases).2.Z.getD l dMat).r = units.getD (l + 1) 0 ∧
      ((model_forward_propagation p af X weights biases).2.Z.getD l dMat).c = X.c) :=
  forward_go_dims p af weights units biases X hok hX

/-- Witness for C8_forward_shapes on the 1×1 sample network. -/
theorem C8_forward_shapes_witness :
    ((model_forward_propagation qPrims afId Xc [W1] [b1]).1.r = 1 ∧
     (model_forward_propagation qPrims afId Xc [W1] [b1]).1.c = Xc.c) ∧
    ((model_forward_propagation qPrims afId Xc [W1] [b1]).2.A_prev.length = 1 ∧
     (model_forward_propagation qPrims afId Xc [W1] [b1]).2.W.length = 1 ∧
     (model_forward_propagation qPrims afId Xc [W1] [b1]).2.b.length = 1 ∧
     (model_forward_propagation qPrims afId Xc [W1] [b1]).2.Z.length = 1) ∧
    (∀ l, l < 1 →
      ((model_forward_propagation qPrims afId Xc [W1] [b1]).2.A_prev.getD l dMat).r = [1, 1].getD l 0 ∧
      ((model_forward_propagation qPrims afId Xc [W1] [b1]).2.A_prev.getD l dMat).c = Xc.c ∧
      ((model_forward_propagation qPrims afId Xc [W1] [b1]).2.W.getD l dMat).r = [1, 1].getD (l + 1) 0 ∧
      ((model_forward_propagation qPrims afId Xc [W1] [b1]).2.W.getD l dMat).c = [1, 1].getD l 0 ∧
      ((model_forward_propagation qPrims afId Xc [W1] [b1]).2.b.getD l dMat).r = [1, 1].getD (l + 1) 0 ∧
      ((model_forward_propagation qPrims afId Xc [W1] [b1]).2.b.getD l dMat).c = 1 ∧
      ((model_forward_propagation qPrims afId Xc [W1] [b1]).2.Z.getD l dMat).r = [1, 1].getD (l + 1) 0 ∧
      ((model_forward_propagation qPrims afId Xc [W1] [b1]).2.Z.getD l dMat).c = Xc.c) :=
  C8_forward_shapes qPrims afId [1, 1] Xc [W1] [b1] ⟨rfl, rfl, rfl, rfl, trivial⟩ rfl

/-- Claim C9: every successful training run of `N` epochs returns a loss
history of length exactly `N`, and its `k`-th entry is the cost computed by
the `k`-th forward/loss/backward/update cycle (from the state entering
iteration `k`), in epoch order — no early stopping or convergence check exists
in the loop. -/
theorem C9_epoch_count (p : Prims) (X : Mat) (y : List ℚ) (layer_units : List ℤ)
    (af : ActivationConfig) (lr : ℚ) (N : ℕ) (lam : Option ℚ)
    (wb0 : List Mat × List Mat) (res : TrainResult)
    (hinit : init_params p layer_units = Except.ok wb0)
    (hrun : train_nn p X y layer_units af lr N lam = Except.ok res) :
    res.costs.length = N ∧
    ∀ k, k < N → res.costs.getD k 0 =
      (epoch_train p X y af lr (trainStateAt p X y af lr lam wb0 k).weights
        (trainStateAt p X y af lr lam wb0 k).biases lam).2.1 := by
  have hres : res = mkResult (trainStateAt p X y af lr lam wb0 N) := by
    have h2 := train_nn_ok p X y layer_units af lr N lam wb0 hinit
    rw [hrun] at h2
    exact Except.ok.inj h2
  constructor
  · rw [hres]
    exact trainStateAt_costs_length p X y af lr lam wb0 N
  · intro k hk
    rw [hres]
    exact trainStateAt_costs_getD p X y af lr lam wb0 N k hk

/-- Witness for C9_epoch_count on the 2-epoch sample run. -/
theorem C9_epoch_count_witness :
    run2.costs.length = 2 ∧
    ∀ k, k < 2 → run2.costs.getD k 0 =
      (epoch_train qPrims Xc [1] afId (1 / 100) (trainStateAt qPrims Xc [1] afId (1 / 100) none wb11 k).weights
        (trainStateAt qPrims Xc [1] afId (1 / 100) none wb11 k).biases none).2.1 :=
  C9_epoch_count qPrims Xc [1] [1, 1] afId (1 / 100) 2 none wb11 run2 rfl rfl

/-- Claim C10: the label matrix returned by `predict` does not depend on the
`y` argument — the source accepts `y` but never reads it, so the embedding's
two calls are definitionally the same term. -/
theorem C10_predict_ignores_labels (p : Prims) (X : Mat) (y1 y2 : List ℚ)
    (parameters : Params) (af : ActivationConfig) :
    predict p X y1 parameters af = predict p X y2 parameters af := rfl

end NNet
